import Mathlib

/-!
Verification of the TCP port-monitoring platform (monitor).

Shallow embedding of the repository's data model and core operations:

* the SQLite schema `database/schema.sql` (tables `monitored_targets` with
  `UNIQUE(public_ip, port)` and `tcp_probe_results` with a
  `FOREIGN KEY ... ON DELETE CASCADE`);
* the Result Store, Stats Aggregator and settings boundary of the
  probing-and-aggregation engine.

Latencies are `REAL` columns, embedded as `ℚ`; timestamps are Unix seconds
embedded as `Nat`.
-/

namespace Monitor

/-- A row of the `monitored_targets` table (schema lines 16-28). -/
structure Target where
  id : Nat
  region : String
  public_ip : String
  port : Nat
  business_system : Option String
  internal_ip : Option String
  internal_port : Option Nat
  is_active : Bool
deriving DecidableEq

/-- A row of the `tcp_probe_results` table (schema lines 31-41):
denormalized region/public_ip/port, `latency_ms REAL` (-1 = connection
failed), success boolean, probe timestamp. -/
structure ProbeResult where
  target_id : Nat
  region : String
  public_ip : String
  port : Nat
  latency_ms : ℚ
  is_successful : Bool
  probe_time : Nat
deriving DecidableEq

/-- The persistent state owned by the core: the targets table (with the
AUTOINCREMENT counter) and the probe-results table. -/
structure DB where
  nextId : Nat
  targets : List Target
  results : List ProbeResult
deriving DecidableEq

/-- The empty database right after `schema.sql` creates the tables
(AUTOINCREMENT starts at 1). -/
def initDB : DB := { nextId := 1, targets := [], results := [] }

/-- The editable columns of a target (everything except the `id` primary
key, which SQLite assigns). -/
structure TargetFields where
  region : String
  public_ip : String
  port : Nat
  business_system : Option String
  internal_ip : Option String
  internal_port : Option Nat
  is_active : Bool
deriving DecidableEq

/-- Build the stored row an INSERT produces from its fields and the
assigned id. -/
def TargetFields.toTarget (f : TargetFields) (id : Nat) : Target :=
  { id := id, region := f.region, public_ip := f.public_ip, port := f.port,
    business_system := f.business_system, internal_ip := f.internal_ip,
    internal_port := f.internal_port, is_active := f.is_active }

/-- INSERT into `monitored_targets`: the schema's `UNIQUE(public_ip, port)`
constraint (line 27) rejects a row whose (public_ip, port) pair already
exists; otherwise the row is appended with the next AUTOINCREMENT id. -/
def addTarget (db : DB) (f : TargetFields) : Option DB :=
  if db.targets.all (fun u => !(u.public_ip == f.public_ip && u.port == f.port)) then
    some { nextId := db.nextId + 1,
           targets := db.targets ++ [f.toTarget db.nextId],
           results := db.results }
  else none

/-- UPDATE of one `monitored_targets` row by primary key: the UNIQUE
constraint rejects the update when the new (public_ip, port) pair collides
with a DIFFERENT row; the row keeps its id and the results table is
untouched. -/
def updateTarget (db : DB) (tid : Nat) (f : TargetFields) : Option DB :=
  if db.targets.all (fun u => u.id == tid ||
      !(u.public_ip == f.public_ip && u.port == f.port)) then
    some { db with targets :=
      db.targets.map (fun u => if u.id == tid then f.toTarget u.id else u) }
  else none

/-- The `PATCH /api/targets/:id/toggle-status` operation: flip `is_active`
of one row, touching nothing else. -/
def toggleTarget (db : DB) (tid : Nat) : DB :=
  { db with targets :=
      db.targets.map (fun u => if u.id == tid then { u with is_active := !u.is_active } else u) }

/-- DELETE of a target row. Schema line 40 declares
`FOREIGN KEY (target_id) REFERENCES monitored_targets(id) ON DELETE CASCADE`,
so deleting the target also deletes every probe result referencing it. -/
def deleteTarget (db : DB) (tid : Nat) : DB :=
  { db with
    targets := db.targets.filter (fun u => !(u.id == tid)),
    results := db.results.filter (fun r => !(r.target_id == tid)) }

/-- `append(result)`: INSERT into the append-only `tcp_probe_results`
table. Modelled from the spec: the backend Result Store is not under src/;
per §4.3 the append durably persists the row and performs no
target-existence check (denormalized attributes make the record
self-contained). -/
def appendResult (db : DB) (r : ProbeResult) : DB :=
  { db with results := db.results ++ [r] }

/-- `prune(older_than)`. Modelled from the spec: the backend retention job
("自动清理30天前历史探测数据", README line 12) is not under src/; per §4.3 it
deletes exactly the results whose timestamp is strictly older than the
cutoff. -/
def pruneResults (db : DB) (cutoff : Nat) : DB :=
  { db with results := db.results.filter (fun r => !(r.probe_time < cutoff)) }

/-- Default retention period of the pruning job: 30 days (README line 12). -/
def retentionDays : Nat := 30

/-- The ProbeResult the Probe Executor hands to the store. Modelled from
the spec: the backend executor is not under src/; per §4.1 it returns the
measured latency with `is_successful = true` on success, and the sentinel
`latency_ms = -1` with `is_successful = false` on any failure. Region, ip
and port are denormalized from the target at probe time. -/
def mkProbeResult (t : Target) (time : Nat) (outcome : Option ℚ) : ProbeResult :=
  match outcome with
  | some l =>
      { target_id := t.id, region := t.region, public_ip := t.public_ip,
        port := t.port, latency_ms := l, is_successful := true, probe_time := time }
  | none =>
      { target_id := t.id, region := t.region, public_ip := t.public_ip,
        port := t.port, latency_ms := -1, is_successful := false, probe_time := time }

/-- The databases reachable from the initial schema state through the
system's operations. A probe append carries the target it was snapshotted
from (possibly deleted meanwhile — the scheduler works on a cycle-start
snapshot) and its outcome; a measured latency is an elapsed time, hence
nonnegative. -/
inductive Reachable : DB → Prop
  | init : Reachable initDB
  | add {db db' : DB} {f : TargetFields} :
      Reachable db → addTarget db f = some db' → Reachable db'
  | update {db db' : DB} {tid : Nat} {f : TargetFields} :
      Reachable db → updateTarget db tid f = some db' → Reachable db'
  | toggle {db : DB} (tid : Nat) :
      Reachable db → Reachable (toggleTarget db tid)
  | delete {db : DB} (tid : Nat) :
      Reachable db → Reachable (deleteTarget db tid)
  | probe {db : DB} (t : Target) (time : Nat) (outcome : Option ℚ) :
      Reachable db → (∀ l, outcome = some l → 0 ≤ l) →
      Reachable (appendResult db (mkProbeResult t time outcome))
  | pruneStep {db : DB} (cutoff : Nat) :
      Reachable db → Reachable (pruneResults db cutoff)

/-- One row of the per-target statistics summary (the spec's StatsSummary,
the frontend's `TargetStats` interface in DashboardPage.tsx). -/
structure TargetStats where
  target_id : Nat
  region : String
  public_ip : String
  port : Nat
  business_system : Option String
  avg_latency_ms : Option ℚ
  packet_loss_rate : ℚ
  total_probes : Nat
  successful_probes : Nat
deriving DecidableEq

/-- Region filter of `summarize` (the dashboard's `region` query
parameter; absent means all regions). -/
def matchesRegion (rf : Option String) (t : Target) : Bool :=
  match rf with
  | none => true
  | some s => t.region == s

/-- The probe results of one target falling inside the resolved time
window `[lo, hi]`. -/
def resultsFor (db : DB) (lo hi : Nat) (tid : Nat) : List ProbeResult :=
  db.results.filter (fun r =>
    r.target_id == tid && decide (lo ≤ r.probe_time) && decide (r.probe_time ≤ hi))

/-- Per-target aggregation. Modelled from the spec: the backend Stats
Aggregator is not under src/; per §4.4 `total_probes` counts results in
range, `successful_probes` counts successes,
`avg_latency_ms` is the mean latency over successful probes only (null
when there is no success), and
`packet_loss_rate = (total - successful) / total` (0 when total = 0). -/
def statsOf (t : Target) (rs : List ProbeResult) : TargetStats :=
  let total := rs.length
  let succs := rs.filter (fun r => r.is_successful)
  let nsucc := succs.length
  { target_id := t.id, region := t.region, public_ip := t.public_ip,
    port := t.port, business_system := t.business_system,
    total_probes := total, successful_probes := nsucc,
    packet_loss_rate :=
      if total = 0 then 0 else ((total : ℚ) - (nsucc : ℚ)) / (total : ℚ),
    avg_latency_ms :=
      if nsucc = 0 then none
      else some ((succs.map (fun r => r.latency_ms)).sum / (nsucc : ℚ)) }

/-- `summarize(time_range, region_filter?)`. Modelled from the spec: the
backend `/api/stats/` endpoint is not under src/; per §4.4 it produces one
summary row per target matching the region filter, aggregated over the
results in the window. -/
def summarize (db : DB) (lo hi : Nat) (rf : Option String) : List TargetStats :=
  (db.targets.filter (matchesRegion rf)).map
    (fun t => statsOf t (resultsFor db lo hi t.id))

/-- The spec's scenario target: region "SG", ip 8.8.8.8, port 53. -/
def sgTarget : Target :=
  { id := 1, region := "SG", public_ip := "8.8.8.8", port := 53,
    business_system := none, internal_ip := none, internal_port := none,
    is_active := true }

/-- The spec's aggregation scenario: 10 probes in 24h, 9 succeed with
latencies [10,12,11,13,9,10,11,12,10] ms, 1 fails. -/
def statsScenarioDB : DB :=
  { nextId := 2, targets := [sgTarget],
    results :=
      [ mkProbeResult sgTarget 3600 (some 10),
        mkProbeResult sgTarget 7200 (some 12),
        mkProbeResult sgTarget 10800 (some 11),
        mkProbeResult sgTarget 14400 (some 13),
        mkProbeResult sgTarget 18000 (some 9),
        mkProbeResult sgTarget 21600 (some 10),
        mkProbeResult sgTarget 25200 (some 11),
        mkProbeResult sgTarget 28800 (some 12),
        mkProbeResult sgTarget 32400 (some 10),
        mkProbeResult sgTarget 36000 none ] }

/-- The scenario's summary row over the 24h window. -/
def scenarioStats : TargetStats :=
  statsOf sgTarget (resultsFor statsScenarioDB 0 86400 1)

/-- The spec's pruning scenario: records aged 29, 30 and 31 days, with
"now" taken as day 100 (timestamps in seconds). -/
def pruneScenarioDB : DB :=
  { nextId := 2, targets := [sgTarget],
    results :=
      [ mkProbeResult sgTarget (71 * 86400) (some 5),
        mkProbeResult sgTarget (70 * 86400) (some 5),
        mkProbeResult sgTarget (69 * 86400) (some 5) ] }

/-- The targets-table invariants the schema maintains: primary keys are
pairwise distinct and below the AUTOINCREMENT counter, and the
(public_ip, port) pairs are pairwise distinct (`UNIQUE(public_ip, port)`,
schema line 27). -/
def targetsOK (db : DB) : Prop :=
  db.targets.Pairwise (fun a b => a.id ≠ b.id) ∧
  db.targets.Pairwise (fun a b => ¬(a.public_ip = b.public_ip ∧ a.port = b.port)) ∧
  ∀ t ∈ db.targets, t.id < db.nextId

/-- Target fields in the shape of the schema's seed rows (port 53, no
business label). -/
def seedFields (region ip : String) : TargetFields :=
  { region := region, public_ip := ip, port := 53, business_system := none,
    internal_ip := none, internal_port := none, is_active := true }

/-- A database holding one successful and one failed probe result,
reachable by two appends from the initial state. -/
def c3DB : DB :=
  appendResult (appendResult initDB (mkProbeResult sgTarget 100 (some 12)))
    (mkProbeResult sgTarget 200 none)

/-- The database after inserting the first seed-shaped target. -/
def oneTargetDB : DB :=
  { nextId := 2, targets := [(seedFields "北京" "8.8.8.8").toTarget 1], results := [] }

/-- The database after inserting two seed-shaped targets with distinct
(public_ip, port) pairs. -/
def twoTargetDB : DB :=
  { nextId := 3,
    targets := [(seedFields "北京" "8.8.8.8").toTarget 1,
                (seedFields "上海" "1.1.1.1").toTarget 2],
    results := [] }

/-- A database with one target and one stored probe result referencing
it. -/
def c9DB : DB :=
  { nextId := 2, targets := [sgTarget],
    results := [mkProbeResult sgTarget 100 (some 7)] }

/-- Replacement fields for editing the target of `c9DB`. -/
def c9Fields : TargetFields := seedFields "SH" "9.9.9.9"

/-- `c9DB` after the edit: the target row changed, the results table did
not. -/
def c9DBup : DB := { c9DB with targets := [c9Fields.toTarget 1] }

/-- A second target, with its own (public_ip, port) pair. -/
def t2 : Target :=
  { id := 2, region := "SH", public_ip := "1.1.1.1", port := 53,
    business_system := none, internal_ip := none, internal_port := none,
    is_active := true }

/-- A database with two targets and one stored result for each. -/
def c10DB : DB :=
  { nextId := 3, targets := [sgTarget, t2],
    results := [mkProbeResult sgTarget 100 (some 7),
                mkProbeResult t2 100 none] }

/-- The spec's ScheduleConfig: probe interval in seconds plus the
running/stopped flag. -/
structure ScheduleConfig where
  probe_interval_seconds : Int
  running : Bool
deriving DecidableEq

/-- `setInterval` at the settings boundary. Modelled from the spec: the
backend `/api/settings/probe-interval` endpoint is not under src/; per §6
and §7(c) a value outside [10, 86400] is rejected synchronously with the
configuration unchanged, and the frontend guard in
AdminPage.handleProbeIntervalSave applies the same bounds
(`value < 10 || value > 86400` is refused). -/
def trySetInterval (cfg : ScheduleConfig) (v : Int) : Except String ScheduleConfig :=
  if v < 10 || 86400 < v then Except.error "interval out of range 10..86400"
  else Except.ok { cfg with probe_interval_seconds := v }

/-- The schedule configurations the scheduler can ever observe: started
from a valid persisted value, changed only through the settings
boundary. -/
inductive CfgReachable : ScheduleConfig → Prop
  | init (cfg : ScheduleConfig) :
      10 ≤ cfg.probe_interval_seconds → cfg.probe_interval_seconds ≤ 86400 →
      CfgReachable cfg
  | set {cfg cfg' : ScheduleConfig} (v : Int) :
      CfgReachable cfg → trySetInterval cfg v = Except.ok cfg' → CfgReachable cfg'

/-- The scheduler reads the interval fresh at each scheduling decision,
so the delay until the next cycle is the currently configured value. -/
def nextDelay (cfg : ScheduleConfig) : Int := cfg.probe_interval_seconds

/-- A valid startup configuration (interval persisted in range). -/
def bootCfg : ScheduleConfig := { probe_interval_seconds := 60, running := true }

end Monitor

namespace Monitor

/-- Successes among a result list are no more numerous than the results. -/
lemma succ_le_total (rs : List ProbeResult) :
    (rs.filter (fun r => r.is_successful)).length ≤ rs.length :=
  List.length_filter_le _ _

/-- Membership in a summary: every row comes from a matching target. -/
lemma mem_summarize {db : DB} {lo hi : Nat} {rf : Option String}
    {s : TargetStats} (hs : s ∈ summarize db lo hi rf) :
    ∃ t ∈ db.targets, matchesRegion rf t = true ∧
      s = statsOf t (resultsFor db lo hi t.id) := by
  rcases List.mem_map.mp hs with ⟨t, ht, rfl⟩
  rcases List.mem_filter.mp ht with ⟨htm, hmr⟩
  exact ⟨t, htm, hmr, rfl⟩

/-- The packet-loss-rate facts hold for the row aggregated from any result
list: the rate is the failed/total quotient, lies in [0,1], and is 0 when
there are no probes. -/
lemma statsOf_packet_loss (t : Target) (rs : List ProbeResult) :
    ((statsOf t rs).total_probes ≠ 0 →
       (statsOf t rs).packet_loss_rate =
         (((statsOf t rs).total_probes : ℚ) - ((statsOf t rs).successful_probes : ℚ)) /
           ((statsOf t rs).total_probes : ℚ)) ∧
    0 ≤ (statsOf t rs).packet_loss_rate ∧ (statsOf t rs).packet_loss_rate ≤ 1 ∧
    ((statsOf t rs).total_probes = 0 → (statsOf t rs).packet_loss_rate = 0) := by
  by_cases h0 : rs.length = 0
  · simp [statsOf, h0]
  · have hpos : (0 : ℚ) < (rs.length : ℚ) := by
      exact_mod_cast Nat.pos_of_ne_zero h0
    have hk : ((rs.filter (fun r => r.is_successful)).length : ℚ) ≤ (rs.length : ℚ) := by
      exact_mod_cast succ_le_total rs
    have hk0 : (0 : ℚ) ≤ ((rs.filter (fun r => r.is_successful)).length : ℚ) := by
      positivity
    have hplr : (statsOf t rs).packet_loss_rate =
        ((rs.length : ℚ) - ((rs.filter (fun r => r.is_successful)).length : ℚ)) /
          (rs.length : ℚ) := by
      simp only [statsOf]
      rw [if_neg h0]
    have htot : (statsOf t rs).total_probes = rs.length := rfl
    have hsucc : (statsOf t rs).successful_probes =
        (rs.filter (fun r => r.is_successful)).length := rfl
    refine ⟨fun _ => by rw [hplr, htot, hsucc], ?_, ?_, fun h => absurd (htot ▸ h) h0⟩
    · rw [hplr]; apply div_nonneg <;> linarith
    · rw [hplr, div_le_one hpos]; linarith

/-- Claim C1: every summary row's packet_loss_rate equals
(total_probes − successful_probes) / total_probes; it always lies in
[0,1] and is exactly 0 when total_probes = 0. -/
theorem summarize_packet_loss_rate (db : DB) (lo hi : Nat) (rf : Option String)
    (s : TargetStats) (hs : s ∈ summarize db lo hi rf) :
    (s.total_probes ≠ 0 →
       s.packet_loss_rate =
         ((s.total_probes : ℚ) - (s.successful_probes : ℚ)) / (s.total_probes : ℚ)) ∧
    0 ≤ s.packet_loss_rate ∧ s.packet_loss_rate ≤ 1 ∧
    (s.total_probes = 0 → s.packet_loss_rate = 0) := by
  rcases mem_summarize hs with ⟨t, -, -, rfl⟩
  exact statsOf_packet_loss t _

/-- The spec's aggregation scenario instantiates Claim C1: 10 probes, 9
successes give packet_loss_rate = 0.1, inside [0,1]. -/
theorem summarize_packet_loss_rate_witness :
    scenarioStats.packet_loss_rate = 1/10 ∧
    0 ≤ scenarioStats.packet_loss_rate ∧ scenarioStats.packet_loss_rate ≤ 1 ∧
    scenarioStats.total_probes = 10 := by
  have hmem : scenarioStats ∈ summarize statsScenarioDB 0 86400 (some "SG") := by
    simp [summarize, statsScenarioDB, scenarioStats, matchesRegion, sgTarget]
  have h := summarize_packet_loss_rate statsScenarioDB 0 86400 (some "SG") scenarioStats hmem
  refine ⟨?_, h.2.1, h.2.2.1, by decide⟩
  simp +decide [scenarioStats, statsOf, resultsFor, statsScenarioDB, mkProbeResult, sgTarget]
  norm_num

/-- Claim C2: every summary row's avg_latency_ms is the arithmetic mean of
latency_ms over the successful probes only (failed probes' sentinel never
enters the sum), and it is none exactly when there is no successful
probe. -/
theorem summarize_avg_latency (db : DB) (lo hi : Nat) (rf : Option String)
    (s : TargetStats) (hs : s ∈ summarize db lo hi rf) :
    ∃ t ∈ db.targets, matchesRegion rf t = true ∧
      s.successful_probes =
        ((resultsFor db lo hi t.id).filter (fun r => r.is_successful)).length ∧
      s.avg_latency_ms =
        (if ((resultsFor db lo hi t.id).filter (fun r => r.is_successful)).length = 0
         then none
         else some
           ((((resultsFor db lo hi t.id).filter (fun r => r.is_successful)).map
               (fun r => r.latency_ms)).sum /
             (((resultsFor db lo hi t.id).filter (fun r => r.is_successful)).length : ℚ))) ∧
      (s.avg_latency_ms = none ↔ s.successful_probes = 0) := by
  rcases mem_summarize hs with ⟨t, htm, hmr, rfl⟩
  refine ⟨t, htm, hmr, rfl, rfl, ?_⟩
  by_cases h0 : ((resultsFor db lo hi t.id).filter (fun r => r.is_successful)).length = 0 <;>
    simp [statsOf, h0]

/-- The spec's aggregation scenario instantiates Claim C2: 9 successful
latencies [10,12,11,13,9,10,11,12,10] average to 98/9 ≈ 10.89, and the
average is not absent since successful_probes = 9 ≠ 0. -/
theorem summarize_avg_latency_witness :
    scenarioStats.avg_latency_ms = some (98/9) ∧
    scenarioStats.successful_probes = 9 ∧
    (scenarioStats.avg_latency_ms = none ↔ scenarioStats.successful_probes = 0) := by
  have hmem : scenarioStats ∈ summarize statsScenarioDB 0 86400 (some "SG") := by
    simp [summarize, statsScenarioDB, scenarioStats, matchesRegion, sgTarget]
  obtain ⟨t, -, -, -, -, hiff⟩ :=
    summarize_avg_latency statsScenarioDB 0 86400 (some "SG") scenarioStats hmem
  refine ⟨?_, by decide, hiff⟩
  simp +decide [scenarioStats, statsOf, resultsFor, statsScenarioDB, mkProbeResult, sgTarget]
  norm_num

/-- Claim C5: prune(cutoff) keeps exactly the results whose timestamp is
not strictly older than the cutoff; on the spec's scenario (records aged
29, 30 and 31 days, cutoff now − 30d with now = day 100) only the
31-day-old record is removed. -/
theorem prune_deletes_strictly_older (db : DB) (cutoff : Nat) :
    (∀ r : ProbeResult,
        r ∈ (pruneResults db cutoff).results ↔
          r ∈ db.results ∧ ¬ r.probe_time < cutoff) ∧
    (pruneResults pruneScenarioDB (70 * 86400)).results =
      [ mkProbeResult sgTarget (71 * 86400) (some 5),
        mkProbeResult sgTarget (70 * 86400) (some 5) ] := by
  constructor
  · intro r
    simp [pruneResults, List.mem_filter]
  · decide

/-- Concrete instance of Claim C5's membership characterization: the
30-day-old record survives pruning at the 30-day cutoff, the 31-day-old
record does not. -/
theorem prune_deletes_strictly_older_witness :
    mkProbeResult sgTarget (70 * 86400) (some 5) ∈
      (pruneResults pruneScenarioDB (70 * 86400)).results ∧
    mkProbeResult sgTarget (69 * 86400) (some 5) ∉
      (pruneResults pruneScenarioDB (70 * 86400)).results := by
  constructor
  · exact ((prune_deletes_strictly_older pruneScenarioDB (70 * 86400)).1 _).mpr
      ⟨by decide, by decide⟩
  · intro hmem
    exact absurd (by decide)
      (((prune_deletes_strictly_older pruneScenarioDB (70 * 86400)).1 _).mp hmem).2

/-- Claim C6: running `prune(cutoff)` twice with the same cutoff produces
the same dataset as running it once — the second run is a no-op. -/
theorem prune_idempotent (db : DB) (cutoff : Nat) :
    pruneResults (pruneResults db cutoff) cutoff = pruneResults db cutoff := by
  simp [pruneResults, List.filter_filter]

/-- Unfolding a successful target INSERT: the uniqueness check passed and
the row was appended with the AUTOINCREMENT id. -/
lemma addTarget_eq {db db' : DB} {f : TargetFields} (h : addTarget db f = some db') :
    db.targets.all (fun u => !(u.public_ip == f.public_ip && u.port == f.port)) = true ∧
    db' = { nextId := db.nextId + 1,
            targets := db.targets ++ [f.toTarget db.nextId],
            results := db.results } := by
  unfold addTarget at h
  split at h
  · next hc => exact ⟨hc, (Option.some.inj h).symm⟩
  · simp at h

/-- Unfolding a successful target UPDATE: the uniqueness check passed and
exactly the row with the given id got the new fields. -/
lemma updateTarget_eq {db db' : DB} {tid : Nat} {f : TargetFields}
    (h : updateTarget db tid f = some db') :
    db.targets.all (fun u => u.id == tid ||
        !(u.public_ip == f.public_ip && u.port == f.port)) = true ∧
    db' = { db with targets :=
        db.targets.map (fun u => if u.id == tid then f.toTarget u.id else u) } := by
  unfold updateTarget at h
  split at h
  · next hc => exact ⟨hc, (Option.some.inj h).symm⟩
  · simp at h

/-- Claim C3: in every reachable database, a stored result with
is_successful = false has latency_ms = -1, and one with
is_successful = true has latency_ms ≥ 0; no other latency values occur. -/
theorem stored_latency_wellformed (db : DB) (h : Reachable db) :
    ∀ r ∈ db.results,
      (r.is_successful = false → r.latency_ms = -1) ∧
      (r.is_successful = true → 0 ≤ r.latency_ms) := by
  induction h with
  | init => intro r hr; simp [initDB] at hr
  | add hdb heq ih =>
      obtain ⟨-, rfl⟩ := addTarget_eq heq
      exact ih
  | update hdb heq ih =>
      obtain ⟨-, rfl⟩ := updateTarget_eq heq
      exact ih
  | toggle tid hdb ih => exact ih
  | delete tid hdb ih =>
      intro r hr
      simp only [deleteTarget, List.mem_filter] at hr
      exact ih r hr.1
  | probe t time outcome hdb hout ih =>
      intro r hr
      simp only [appendResult, List.mem_append, List.mem_singleton] at hr
      rcases hr with hr | rfl
      · exact ih r hr
      · cases outcome with
        | some l =>
            refine ⟨fun hfalse => ?_, fun _ => ?_⟩
            · simp [mkProbeResult] at hfalse
            · simpa [mkProbeResult] using hout l rfl
        | none =>
            refine ⟨fun _ => rfl, fun htrue => ?_⟩
            simp [mkProbeResult] at htrue
  | pruneStep cutoff hdb ih =>
      intro r hr
      simp only [pruneResults, List.mem_filter] at hr
      exact ih r hr.1

/-- Concrete instance of Claim C3: in a reachable database holding one
successful (12 ms) and one failed probe, the failed record carries the -1
sentinel and the successful one a nonnegative latency. -/
theorem stored_latency_wellformed_witness :
    (mkProbeResult sgTarget 200 none).latency_ms = -1 ∧
    0 ≤ (mkProbeResult sgTarget 100 (some 12)).latency_ms := by
  have hreach : Reachable c3DB := by
    refine Reachable.probe sgTarget 200 none
      (Reachable.probe sgTarget 100 (some 12) Reachable.init ?_) ?_
    · intro l hl
      cases hl
      norm_num
    · intro l hl
      cases hl
  have h := stored_latency_wellformed c3DB hreach
  exact ⟨(h _ (by decide)).1 rfl, (h _ (by decide)).2 rfl⟩

/-- Every reachable database satisfies the targets-table invariants:
distinct primary keys below the AUTOINCREMENT counter and distinct
(public_ip, port) pairs. -/
lemma reachable_targetsOK {db : DB} (h : Reachable db) : targetsOK db := by
  induction h with
  | init => simp [targetsOK, initDB]
  | @add db db' f hdb heq ih =>
      obtain ⟨hall, rfl⟩ := addTarget_eq heq
      obtain ⟨hid, hpair, hlt⟩ := ih
      have hallm : ∀ u ∈ db.targets, ¬(u.public_ip = f.public_ip ∧ u.port = f.port) := by
        intro u hu
        have h1 := List.all_eq_true.mp hall u hu
        simp at h1
        tauto
      refine ⟨?_, ?_, ?_⟩
      · rw [List.pairwise_append]
        refine ⟨hid, by simp, ?_⟩
        intro a ha b hb
        simp only [List.mem_singleton] at hb
        subst hb
        have := hlt a ha
        simp [TargetFields.toTarget]
        omega
      · rw [List.pairwise_append]
        refine ⟨hpair, by simp, ?_⟩
        intro a ha b hb
        simp only [List.mem_singleton] at hb
        subst hb
        have := hallm a ha
        simpa [TargetFields.toTarget] using this
      · intro t ht
        rcases List.mem_append.mp ht with h1 | h1
        · have := hlt t h1
          simp only []
          omega
        · simp only [List.mem_singleton] at h1
          subst h1
          simp [TargetFields.toTarget]
  | @update db db' tid f hdb heq ih =>
      obtain ⟨hall, rfl⟩ := updateTarget_eq heq
      obtain ⟨hid, hpair, hlt⟩ := ih
      have hgid : ∀ u : Target,
          ((if u.id == tid then f.toTarget u.id else u) : Target).id = u.id := by
        intro u
        by_cases hu : u.id = tid <;> simp [beq_iff_eq, hu, TargetFields.toTarget]
      have hallm : ∀ u ∈ db.targets,
          u.id = tid ∨ ¬(u.public_ip = f.public_ip ∧ u.port = f.port) := by
        intro u hu
        have h1 := List.all_eq_true.mp hall u hu
        simp [beq_iff_eq] at h1
        tauto
      refine ⟨?_, ?_, ?_⟩
      · rw [List.pairwise_map]
        refine hid.imp ?_
        intro a b hab
        rw [hgid, hgid]
        exact hab
      · rw [List.pairwise_map]
        refine (hid.and hpair).imp_of_mem ?_
        intro a b ha hb hab
        obtain ⟨hidab, hpairab⟩ := hab
        by_cases hat : a.id = tid <;> by_cases hbt : b.id = tid
        · exact absurd (hat.trans hbt.symm) hidab
        · have hb' := (hallm b hb).resolve_left hbt
          simp [beq_iff_eq, hat, hbt, TargetFields.toTarget]
          intro hip hport
          exact hb' ⟨hip.symm, hport.symm⟩
        · have ha' := (hallm a ha).resolve_left hat
          simp [beq_iff_eq, hat, hbt, TargetFields.toTarget]
          intro hip hport
          exact ha' ⟨hip, hport⟩
        · simpa [beq_iff_eq, hat, hbt, TargetFields.toTarget] using hpairab
      · intro t ht
        rcases List.mem_map.mp ht with ⟨u, hu, rfl⟩
        rw [hgid]
        exact hlt u hu
  | @toggle db tid hdb ih =>
      obtain ⟨hid, hpair, hlt⟩ := ih
      have hT : ∀ u : Target,
          ((if u.id == tid then { u with is_active := !u.is_active } else u) : Target).id = u.id ∧
          ((if u.id == tid then { u with is_active := !u.is_active } else u) : Target).public_ip = u.public_ip ∧
          ((if u.id == tid then { u with is_active := !u.is_active } else u) : Target).port = u.port := by
        intro u
        by_cases hu : u.id = tid <;> simp [beq_iff_eq, hu]
      refine ⟨?_, ?_, ?_⟩
      · simp only [toggleTarget]
        rw [List.pairwise_map]
        refine hid.imp ?_
        intro a b hab
        rw [(hT a).1, (hT b).1]
        exact hab
      · simp only [toggleTarget]
        rw [List.pairwise_map]
        refine hpair.imp ?_
        intro a b hab
        rw [(hT a).2.1, (hT a).2.2, (hT b).2.1, (hT b).2.2]
        exact hab
      · intro t ht
        simp only [toggleTarget] at ht
        rcases List.mem_map.mp ht with ⟨u, hu, rfl⟩
        rw [(hT u).1]
        exact hlt u hu
  | delete tid hdb ih =>
      obtain ⟨hid, hpair, hlt⟩ := ih
      exact ⟨hid.sublist (List.filter_sublist _),
             hpair.sublist (List.filter_sublist _),
             fun t ht => hlt t (List.mem_filter.mp ht).1⟩
  | probe t time outcome hdb hout ih => exact ih
  | pruneStep cutoff hdb ih => exact ih

/-- Claim C7: in every reachable database no two target rows share the
same (public_ip, port) pair — the schema's UNIQUE constraint is preserved
by every operation on the target set. -/
theorem targets_unique_pair (db : DB) (h : Reachable db) :
    db.targets.Pairwise (fun a b => ¬(a.public_ip = b.public_ip ∧ a.port = b.port)) :=
  (reachable_targetsOK h).2.1

/-- Concrete instance of Claim C7: after inserting two seed targets with
distinct pairs, the table still has pairwise-distinct (public_ip, port)
pairs. -/
theorem targets_unique_pair_witness :
    twoTargetDB.targets.Pairwise
      (fun a b => ¬(a.public_ip = b.public_ip ∧ a.port = b.port)) := by
  apply targets_unique_pair
  exact Reachable.add (Reachable.add Reachable.init
    (show addTarget initDB (seedFields "北京" "8.8.8.8") = some oneTargetDB by decide))
    (show addTarget oneTargetDB (seedFields "上海" "1.1.1.1") = some twoTargetDB by decide)

/-- Claim C4: the Result Store append is total — even when the probed
target no longer exists in the registry (deleted between snapshot and
write), the result is persisted, the earlier results survive, and the
store stays within the system's reachable states. -/
theorem append_accepts_orphan (db : DB) (t : Target) (time : Nat) (outcome : Option ℚ)
    (_hgone : ∀ u ∈ db.targets, u.id ≠ t.id)
    (hreach : Reachable db) (hout : ∀ l, outcome = some l → 0 ≤ l) :
    mkProbeResult t time outcome ∈
      (appendResult db (mkProbeResult t time outcome)).results ∧
    (∀ r ∈ db.results, r ∈ (appendResult db (mkProbeResult t time outcome)).results) ∧
    Reachable (appendResult db (mkProbeResult t time outcome)) := by
  refine ⟨?_, ?_, Reachable.probe t time outcome hreach hout⟩
  · simp [appendResult]
  · intro r hr
    simp only [appendResult, List.mem_append]
    exact Or.inl hr

/-- Concrete instance of Claim C4: after deleting the only target, a probe
result snapshotted from it is still accepted by the store. -/
theorem append_accepts_orphan_witness :
    mkProbeResult sgTarget 300 (some 4) ∈
      (appendResult (deleteTarget c9DB 1) (mkProbeResult sgTarget 300 (some 4))).results := by
  have hc9 : Reachable c9DB := by
    refine Reachable.probe sgTarget 100 (some 7)
      (Reachable.add Reachable.init
        (show addTarget initDB (seedFields "SG" "8.8.8.8") = some
          { nextId := 2, targets := [sgTarget], results := [] } by decide)) ?_
    intro l hl
    cases hl
    norm_num
  have h := append_accepts_orphan (deleteTarget c9DB 1) sgTarget 300 (some 4)
    (by decide) (Reachable.delete 1 hc9) ?_
  · exact h.1
  · intro l hl
    cases hl
    norm_num

/-- Claim C9 as stated is false on the schema: target deletion — an
operation other than retention pruning — removes stored probe results,
via `ON DELETE CASCADE` (schema line 40): the stored result of target 1
is gone after the target row is deleted. -/
theorem results_only_pruned_counterexample :
    mkProbeResult sgTarget 100 (some 7) ∈ c9DB.results ∧
    mkProbeResult sgTarget 100 (some 7) ∉ (deleteTarget c9DB 1).results := by
  constructor
  · decide
  · decide

/-- Claim C9 amended: stored results are never mutated — inserts, target
updates and toggles, appends, prunes and deletes leave every surviving
result byte-identical (a later target edit changes no field of any stored
result) — and the only operations that remove results are retention
pruning and the ON DELETE CASCADE of target deletion. -/
theorem results_immutable (db : DB) :
    (∀ db' f, addTarget db f = some db' → db'.results = db.results) ∧
    (∀ db' tid f, updateTarget db tid f = some db' → db'.results = db.results) ∧
    (∀ tid, (toggleTarget db tid).results = db.results) ∧
    (∀ r, (appendResult db r).results = db.results ++ [r]) ∧
    (∀ cutoff, (pruneResults db cutoff).results =
        db.results.filter (fun r => !(r.probe_time < cutoff))) ∧
    (∀ tid, (deleteTarget db tid).results =
        db.results.filter (fun r => !(r.target_id == tid))) := by
  refine ⟨?_, ?_, fun _ => rfl, fun _ => rfl, fun _ => rfl, fun _ => rfl⟩
  · intro db' f h
    rw [(addTarget_eq h).2]
  · intro db' tid f h
    rw [(updateTarget_eq h).2]

/-- Concrete instance of the amended Claim C9: editing target 1's fields
(region/ip change) and toggling it leave the stored result list
untouched. -/
theorem results_immutable_witness :
    c9DBup.results = c9DB.results ∧
    (toggleTarget c9DB 1).results = c9DB.results := by
  constructor
  · exact (results_immutable c9DB).2.1 c9DBup 1 c9Fields (by decide)
  · exact (results_immutable c9DB).2.2.1 1

/-- Claim C10: deleting a target cascades to its probe results — after
the deletion no stored result references the deleted id, and referential
integrity (every stored result references an existing target) is
preserved. -/
theorem delete_cascades (db : DB) (tid : Nat) :
    (∀ r ∈ (deleteTarget db tid).results, r.target_id ≠ tid) ∧
    ((∀ r ∈ db.results, ∃ t ∈ db.targets, t.id = r.target_id) →
      ∀ r ∈ (deleteTarget db tid).results,
        ∃ t ∈ (deleteTarget db tid).targets, t.id = r.target_id) := by
  constructor
  · intro r hr
    simp only [deleteTarget, List.mem_filter] at hr
    simpa using hr.2
  · intro hint r hr
    simp only [deleteTarget, List.mem_filter] at hr ⊢
    obtain ⟨hrmem, hrne⟩ := hr
    obtain ⟨t, ht, hteq⟩ := hint r hrmem
    refine ⟨t, ⟨ht, ?_⟩, hteq⟩
    simp only [Bool.not_eq_eq_eq_not, Bool.not_true, beq_eq_false_iff_ne] at hrne ⊢
    rw [hteq]
    exact hrne

/-- Concrete instance of Claim C10: after deleting target 1 from a
two-target store, target 2's result survives and still references an
existing target row. -/
theorem delete_cascades_witness :
    mkProbeResult t2 100 none ∈ (deleteTarget c10DB 1).results ∧
    ∃ t ∈ (deleteTarget c10DB 1).targets,
      t.id = (mkProbeResult t2 100 none).target_id := by
  refine ⟨by decide, ?_⟩
  exact (delete_cascades c10DB 1).2 (by decide) _ (by decide)

/-- Claim C8: the settings boundary accepts exactly the intervals in
[10, 86400] seconds — an out-of-range value is rejected synchronously
with the configuration unchanged, an in-range value is stored and becomes
the delay of the next scheduling decision, and every configuration the
scheduler can ever observe stays in range. -/
theorem interval_bounds_enforced :
    (∀ cfg : ScheduleConfig, ∀ v : Int, (v < 10 ∨ 86400 < v) →
        trySetInterval cfg v = Except.error "interval out of range 10..86400") ∧
    (∀ cfg : ScheduleConfig, ∀ v : Int, 10 ≤ v → v ≤ 86400 →
        trySetInterval cfg v =
          Except.ok { cfg with probe_interval_seconds := v } ∧
        nextDelay { cfg with probe_interval_seconds := v } = v) ∧
    (∀ cfg : ScheduleConfig, CfgReachable cfg →
        10 ≤ cfg.probe_interval_seconds ∧ cfg.probe_interval_seconds ≤ 86400) := by
  refine ⟨?_, ?_, ?_⟩
  · intro cfg v hv
    have hc : (decide (v < 10) || decide (86400 < v)) = true := by
      rcases hv with h | h <;> simp [h]
    simp [trySetInterval, hc]
  · intro cfg v h1 h2
    have hc : (decide (v < 10) || decide (86400 < v)) = false := by
      simp
      omega
    exact ⟨by simp [trySetInterval, hc], rfl⟩
  · intro cfg h
    induction h with
    | init cfg h1 h2 => exact ⟨h1, h2⟩
    | @set cfg cfg' v hcfg heq ih =>
        unfold trySetInterval at heq
        split at heq
        · simp at heq
        · next hcond =>
            obtain rfl := Except.ok.inj heq
            simp only [Bool.or_eq_true, decide_eq_true_eq, not_or] at hcond
            exact show 10 ≤ v ∧ v ≤ 86400 by omega

/-- Concrete instance of Claim C8 (the spec's scenario): interval 5 is
rejected, interval 120 is accepted and the next cycle is scheduled 120
seconds out; the startup configuration is in range. -/
theorem interval_bounds_enforced_witness :
    trySetInterval bootCfg 5 = Except.error "interval out of range 10..86400" ∧
    trySetInterval bootCfg 120 =
      Except.ok { bootCfg with probe_interval_seconds := 120 } ∧
    nextDelay { bootCfg with probe_interval_seconds := 120 } = 120 ∧
    10 ≤ bootCfg.probe_interval_seconds ∧ bootCfg.probe_interval_seconds ≤ 86400 := by
  have h2 := interval_bounds_enforced.2.1 bootCfg 120 (by norm_num) (by norm_num)
  have h3 := interval_bounds_enforced.2.2 bootCfg
    (CfgReachable.init bootCfg (by norm_num [bootCfg]) (by norm_num [bootCfg]))
  exact ⟨interval_bounds_enforced.1 bootCfg 5 (Or.inl (by norm_num)),
         h2.1, h2.2, h3.1, h3.2⟩

end Monitor
